import Mathlib

/-!
Verification of the job-preparation stage of the mc bulk-copy CLI
(src/cmd/cp-url.go): the four-way URL-pattern classifier, the per-pattern
job expanders (Types A, B, C, D), and the generate/filter pipeline.

Strings are modelled as Lean strings; Go byte indices coincide with
character indices because every path in scope is ASCII.  Channels are
modelled as finite lists of emitted values, in emission order.  Collaborator
services (alias resolution, stat, listing, directory test) are modelled as
an explicit environment of functions, matching the spec's contract that
they are injected read-only lookup services.
-/

namespace MC

/-! ### Go standard-library string and path helpers (Linux build: separator is the forward slash) -/

/-- os path separator on the Linux build of the tool. -/
def pathSeparator : Char := '/'

/-- Go filepath.ToSlash: replace every path separator by a forward slash. -/
def toSlash (s : String) : String :=
  ⟨s.data.map (fun c => if c = pathSeparator then '/' else c)⟩

/-- Go strings.LastIndex: index of the last occurrence of sub in s, or -1. -/
def strLastIndex (s sub : String) : Int :=
  match ((List.range (s.data.length + 1)).filter
      (fun i => sub.data.isPrefixOf (s.data.drop i))).getLast? with
  | some i => Int.ofNat i
  | none => -1

/-- Go slice s[:n] for ASCII strings. -/
def strTake (s : String) (n : Nat) : String := ⟨s.data.take n⟩

/-- Go strings.TrimPrefix: drop pre from the front of s when it is a prefix, else s unchanged. -/
def trimPrefixGo (s pre : String) : String :=
  if pre.data.isPrefixOf s.data then ⟨s.data.drop pre.data.length⟩ else s

/-- Split a character list on forward slashes. -/
def splitSlash : List Char → List (List Char)
  | [] => [[]]
  | c :: rest =>
    match splitSlash rest with
    | [] => if c = '/' then [[], []] else [[c]]
    | h :: t => if c = '/' then [] :: h :: t else (c :: h) :: t

/-- One step of Go path.Clean: push a path component onto the processed stack. -/
def cleanPush (rooted : Bool) (stack : List (List Char)) (comp : List Char) : List (List Char) :=
  if comp = [] ∨ comp = ['.'] then stack
  else if comp = ['.', '.'] then
    match stack with
    | [] => if rooted then [] else [['.', '.']]
    | top :: rest => if top = ['.', '.'] then comp :: stack else rest
  else comp :: stack

/-- Interleave path components with forward slashes. -/
def joinComps : List (List Char) → List Char
  | [] => []
  | [c] => c
  | c :: rest => c ++ '/' :: joinComps rest

/-- Go filepath.Clean on a slash-separated path (Linux build). -/
def goClean (path : String) : String :=
  if path = "" then "."
  else
    let rooted := path.data.headD ' ' = '/'
    let comps := splitSlash path.data
    let stack := comps.foldl (cleanPush rooted) []
    let body := joinComps stack.reverse
    if rooted then ⟨'/' :: body⟩
    else if body = [] then "."
    else ⟨body⟩

/-- Go filepath.Join restricted to the two-argument form used by the source. -/
def goJoin2 (a b : String) : String :=
  if a ≠ "" then goClean (a ++ "/" ++ b)
  else if b ≠ "" then goClean b
  else ""

/-- Go filepath.Base on a slash-separated path (Linux build). -/
def goBase (path : String) : String :=
  if path = "" then "."
  else
    let l := (path.data.reverse.dropWhile (fun c => c = '/')).reverse
    let last := (l.reverse.takeWhile (fun c => c ≠ '/')).reverse
    if last = [] then "/" else ⟨last⟩

/-- Go strings.HasSuffix. -/
def strHasSuffix (s suf : String) : Bool := suf.data.isSuffixOf s.data

/-! ### Data model -/

/-- Go time.Time, reduced to a comparable instant; time.Time\x7b\x7d is `Time.zero`. -/
structure Time where
  sec : Int
deriving DecidableEq, Repr

/-- The zero time.Time value. -/
def Time.zero : Time := ⟨0⟩

/-- Error kinds of the core, from the spec's error taxonomy (section 7). -/
inductive ErrKind where
  | invalidArgument
  | invalidSource (url : String)
  | sourceIsDir (url : String)
  | other (msg : String)
deriving DecidableEq, Repr

/-- probe.Error: a structured error carrying an accumulated trace of URLs. -/
structure ProbeErr where
  kind : ErrKind
  trace : List String
deriving DecidableEq, Repr

/-- probe.Error.Trace: append tracing URLs to an error. -/
def ProbeErr.Trace (e : ProbeErr) (urls : List String) : ProbeErr :=
  ⟨e.kind, e.trace ++ urls⟩

/-- Modelled from the spec: errInvalidArgument (not under src/), the Invalid-classification error. -/
def errInvalidArgument : ProbeErr := ⟨ErrKind.invalidArgument, []⟩

/-- Modelled from the spec: errInvalidSource (not under src/), the generic invalid-source error. -/
def errInvalidSource (url : String) : ProbeErr := ⟨ErrKind.invalidSource url, []⟩

/-- Modelled from the spec: errSourceIsDir (not under src/), the distinct source-is-a-directory error. -/
def errSourceIsDir (url : String) : ProbeErr := ⟨ErrKind.sourceIsDir url, []⟩

/-- Observed type of a backend entry (os.FileMode reduced to the predicates the source uses). -/
inductive FileType where
  | regular
  | dir
  | other
deriving DecidableEq, Repr

/-- os.FileMode.IsRegular. -/
def FileType.IsRegular : FileType → Bool
  | .regular => true
  | _ => false

/-- os.FileMode.IsDir. -/
def FileType.IsDir : FileType → Bool
  | .dir => true
  | _ => false

/-- ClientURL: a parsed location — path and path separator. -/
structure ClientURL where
  Path : String
  Separator : Char
deriving DecidableEq, Repr

/-- Modelled from the spec: newClientURL (not under src/) parses a URL; for the
path-only locations in scope it keeps the path verbatim with a forward-slash separator. -/
def newClientURL (s : String) : ClientURL := ⟨s, '/'⟩

/-- Modelled from the spec: ClientURL.String (not under src/), the serialization of a
path-only location, which round-trips to its path. -/
def ClientURL.str (u : ClientURL) : String := u.Path

/-- ClientContent: a backend entry description (location, type, time, version,
optional per-entry error of a listing). -/
structure ClientContent where
  URL : ClientURL
  type_ : FileType
  Time : Time
  VersionID : String
  Err : Option ProbeErr
deriving DecidableEq, Repr

/-- The Go zero ClientContent with only the URL set, as built by
makeCopyContentTypeA for the target; os.FileMode zero is a regular-file mode. -/
def ClientContent.bare (u : ClientURL) : ClientContent :=
  ⟨u, FileType.regular, Time.zero, "", none⟩

/-- URLs: one Job of the pipeline — a resolved (source, target) pair or an error. -/
structure URLs where
  SourceAlias : String
  SourceContent : Option ClientContent
  TargetAlias : String
  TargetContent : Option ClientContent
  Error : Option ProbeErr
deriving DecidableEq, Repr

/-- A Go URLs literal with only the Error field set. -/
def URLs.ofError (e : ProbeErr) : URLs := ⟨"", none, "", none, some e⟩

/-- ShowDir option of a listing. -/
inductive DirOpt where
  | DirNone
  | DirFirst
  | DirLast
deriving DecidableEq, Repr

/-- ListOptions: the listing-configuration fields the source sets (the remaining
Go fields keep their zero values and are omitted). -/
structure ListOptions where
  Recursive : Bool
  TimeRef : Time
  ShowDir : DirOpt
  ListZip : Bool
deriving DecidableEq, Repr

/-- Opaque encryption-key table, passed through unchanged. -/
abbrev EncKeyDB := List (String × String)

/-- A backend client: its URL and its listing service.  A listing is modelled as
the finite list of records the stream yields, in enumeration order. -/
structure Client where
  url : ClientURL
  list : ListOptions → List ClientContent

/-- Client.GetURL. -/
def Client.GetURL (c : Client) : ClientURL := c.url

/-- The collaborator services consumed by the core (spec section 6), injected as
an environment: alias resolution, stat, probe, directory test, client
construction, and the pre-parsed time-bound comparisons. -/
structure Env where
  mustExpandAlias : String → String × String
  url2Stat : String → String → Bool → EncKeyDB → Time → Bool → Except ProbeErr ClientContent
  firstURL2Stat : String → Time → Bool → Except ProbeErr ClientContent
  isAliasURLDir : String → EncKeyDB → Time → Bool
  newClient : String → Except ProbeErr Client
  isOlder : Time → String → Bool
  isNewer : Time → String → Bool

/-- Modelled from the spec: urlJoinPath (not under src/) joins a suffix onto a
base path, always forward-slash-normalized, avoiding a doubled slash. -/
def urlJoinPath (url1 url2 : String) : String :=
  let p1 := toSlash url1
  let p2 := toSlash url2
  if strHasSuffix p1 "/" then p1 ++ trimPrefixGo p2 "/"
  else p1 ++ "/" ++ trimPrefixGo p2 "/"

/-! ### Embedding of src/cmd/cp-url.go -/

/-- copyURLsType: the four canonical invocation shapes plus Invalid. -/
inductive copyURLsType where
  | copyURLsTypeInvalid
  | copyURLsTypeA
  | copyURLsTypeB
  | copyURLsTypeC
  | copyURLsTypeD
deriving DecidableEq, Repr

/-- prepareCopyURLsOpts: the immutable per-invocation option bundle. -/
structure prepareCopyURLsOpts where
  sourceURLs : List String
  targetURL : String
  isRecursive : Bool
  encKeyDB : EncKeyDB
  olderThan : String
  newerThan : String
  timeRef : Time
  versionID : String
  isZip : Bool

/-- The classifier's source probe: a full stat when not recursive, else the
lightweight first-object probe (guessCopyURLType, lines 61-65). -/
def classifierProbe (env : Env) (o : prepareCopyURLsOpts) : Except ProbeErr ClientContent :=
  if !o.isRecursive then
    env.url2Stat (o.sourceURLs.headD "") o.versionID false o.encKeyDB o.timeRef o.isZip
  else
    env.firstURL2Stat (o.sourceURLs.headD "") o.timeRef o.isZip

/-- guessCopyURLType (cp-url.go lines 56-90). -/
def guessCopyURLType (env : Env) (o : prepareCopyURLsOpts) :
    copyURLsType × String × Option ProbeErr :=
  if o.sourceURLs.length = 1 then
    match classifierProbe env o with
    | Except.error err => (copyURLsType.copyURLsTypeInvalid, "", some err)
    | Except.ok sourceContent =>
      if sourceContent.type_.IsDir || o.isRecursive then
        (copyURLsType.copyURLsTypeC, "", none)
      else if env.isAliasURLDir o.targetURL o.encKeyDB o.timeRef then
        (copyURLsType.copyURLsTypeB, sourceContent.VersionID, none)
      else
        (copyURLsType.copyURLsTypeA, sourceContent.VersionID, none)
  else if env.isAliasURLDir o.targetURL o.encKeyDB o.timeRef then
    (copyURLsType.copyURLsTypeD, "", none)
  else
    (copyURLsType.copyURLsTypeInvalid, "", some (errInvalidArgument.Trace []))

/-- makeCopyContentTypeA (cp-url.go lines 115-123). -/
def makeCopyContentTypeA (sourceAlias : String) (sourceContent : ClientContent)
    (targetAlias targetURL : String) : URLs :=
  ⟨sourceAlias, some sourceContent, targetAlias,
    some (ClientContent.bare (newClientURL targetURL)), none⟩

/-- prepareCopyURLsTypeA (cp-url.go lines 94-112). -/
def prepareCopyURLsTypeA (env : Env) (sourceURL sourceVersion targetURL : String)
    (encKeyDB : EncKeyDB) (isZip : Bool) : URLs :=
  let sourceAlias := (env.mustExpandAlias sourceURL).1
  let targetAlias := (env.mustExpandAlias targetURL).1
  let targetURL2 := (env.mustExpandAlias targetURL).2
  match env.url2Stat sourceURL sourceVersion false encKeyDB Time.zero isZip with
  | Except.error err => URLs.ofError (err.Trace [sourceURL])
  | Except.ok sourceContent =>
    if !sourceContent.type_.IsRegular then
      URLs.ofError ((errInvalidSource sourceURL).Trace [sourceURL])
    else
      makeCopyContentTypeA sourceAlias sourceContent targetAlias targetURL2

/-- makeCopyContentTypeB (cp-url.go lines 152-157): append the source's base
name to the target directory, forward-slash-normalized, then build via Type A. -/
def makeCopyContentTypeB (sourceAlias : String) (sourceContent : ClientContent)
    (targetAlias targetURL : String) : URLs :=
  let targetURLParsePath :=
    toSlash (goJoin2 (newClientURL targetURL).Path (goBase sourceContent.URL.Path))
  makeCopyContentTypeA sourceAlias sourceContent targetAlias
    (ClientURL.str ⟨targetURLParsePath, '/'⟩)

/-- prepareCopyURLsTypeB (cp-url.go lines 127-149). -/
def prepareCopyURLsTypeB (env : Env) (sourceURL sourceVersion targetURL : String)
    (encKeyDB : EncKeyDB) (isZip : Bool) : URLs :=
  let sourceAlias := (env.mustExpandAlias sourceURL).1
  let targetAlias := (env.mustExpandAlias targetURL).1
  let targetURL2 := (env.mustExpandAlias targetURL).2
  match env.url2Stat sourceURL sourceVersion false encKeyDB Time.zero isZip with
  | Except.error err => URLs.ofError (err.Trace [sourceURL])
  | Except.ok sourceContent =>
    if !sourceContent.type_.IsRegular then
      if sourceContent.type_.IsDir then
        URLs.ofError ((errSourceIsDir sourceURL).Trace [sourceURL])
      else
        URLs.ofError ((errInvalidSource sourceURL).Trace [sourceURL])
    else
      makeCopyContentTypeB sourceAlias sourceContent targetAlias targetURL2

/-- makeCopyContentTypeC (cp-url.go lines 196-206). -/
def makeCopyContentTypeC (sourceAlias : String) (sourceURL : ClientURL)
    (sourceContent : ClientContent) (targetAlias targetURL : String) : URLs :=
  let newSourceURL := sourceContent.URL
  let pathSeparatorIndex := strLastIndex sourceURL.Path (String.singleton sourceURL.Separator)
  let newSourceSuffix0 := toSlash newSourceURL.Path
  let newSourceSuffix :=
    if pathSeparatorIndex > 1 then
      trimPrefixGo newSourceSuffix0 (toSlash (strTake sourceURL.Path pathSeparatorIndex.toNat))
    else newSourceSuffix0
  let newTargetURL := urlJoinPath targetURL newSourceSuffix
  makeCopyContentTypeA sourceAlias sourceContent targetAlias newTargetURL

/-- The ListOptions literal built at cp-url.go line 176. -/
def typeCListOptions (isRecursive isZip : Bool) (timeRef : Time) : ListOptions :=
  ⟨isRecursive, timeRef, DirOpt.DirNone, isZip⟩

/-- The body of the per-record loop of prepareCopyURLsTypeC (lines 177-189):
an error record yields an error Job traced with the client URL, a non-regular
record yields nothing, a regular record yields a Type C Job. -/
def typeCStep (sourceAlias : String) (clientURL : ClientURL)
    (targetAlias targetURL : String) (sourceContent : ClientContent) : Option URLs :=
  match sourceContent.Err with
  | some e => some (URLs.ofError (e.Trace [clientURL.str]))
  | none =>
    if !sourceContent.type_.IsRegular then none
    else some (makeCopyContentTypeC sourceAlias clientURL sourceContent targetAlias targetURL)

/-- prepareCopyURLsTypeC (cp-url.go lines 161-193); the emitted channel is the
returned list, in emission order. -/
def prepareCopyURLsTypeC (env : Env) (sourceURL targetURL : String)
    (isRecursive isZip : Bool) (timeRef : Time) : List URLs :=
  let sourceAlias := (env.mustExpandAlias sourceURL).1
  let targetAlias := (env.mustExpandAlias targetURL).1
  let targetURL2 := (env.mustExpandAlias targetURL).2
  match env.newClient sourceURL with
  | Except.error err => [URLs.ofError (err.Trace [sourceURL])]
  | Except.ok sourceClient =>
    (sourceClient.list (typeCListOptions isRecursive isZip timeRef)).filterMap
      (typeCStep sourceAlias sourceClient.GetURL targetAlias targetURL2)

/-- prepareCopyURLsTypeD (cp-url.go lines 210-221): for each source in argument
order, drain Type C — note the isZip argument of the inner call is the literal
false at line 215. -/
def prepareCopyURLsTypeD (env : Env) (sourceURLs : List String) (targetURL : String)
    (isRecursive : Bool) (timeRef : Time) : List URLs :=
  match sourceURLs with
  | [] => []
  | sourceURL :: rest =>
    prepareCopyURLsTypeC env sourceURL targetURL isRecursive false timeRef
      ++ prepareCopyURLsTypeD env rest targetURL isRecursive timeRef

/-- A Go runtime fault: dereferencing a nil pointer aborts the goroutine and
with it the whole process. -/
inductive Crash where
  | nilPointerDeref
deriving DecidableEq, Repr

/-- The newer-than half of the filter loop (cp-url.go lines 269-274): evaluating
cpURLs.SourceContent.Time dereferences a nil pointer when the Job is an error Job. -/
def timeFilterNewerStep (env : Env) (o : prepareCopyURLsOpts) (cpURLs : URLs) :
    Except Crash (Option URLs) :=
  if o.newerThan ≠ "" then
    match cpURLs.SourceContent with
    | none => Except.error Crash.nilPointerDeref
    | some sc =>
      if env.isNewer sc.Time o.newerThan then Except.ok none
      else Except.ok (some cpURLs)
  else Except.ok (some cpURLs)

/-- One iteration of the filter loop (cp-url.go lines 263-275): ok none means
the Job is skipped, ok some means it is forwarded to the final channel. -/
def timeFilterStep (env : Env) (o : prepareCopyURLsOpts) (cpURLs : URLs) :
    Except Crash (Option URLs) :=
  if o.olderThan ≠ "" then
    match cpURLs.SourceContent with
    | none => Except.error Crash.nilPointerDeref
    | some sc =>
      if env.isOlder sc.Time o.olderThan then Except.ok none
      else timeFilterNewerStep env o cpURLs
  else timeFilterNewerStep env o cpURLs

/-- The filter stage: drain the raw channel, applying timeFilterStep to each Job. -/
def timeFilterAll (env : Env) (o : prepareCopyURLsOpts) : List URLs → Except Crash (List URLs)
  | [] => Except.ok []
  | j :: rest =>
    match timeFilterStep env o j with
    | Except.error c => Except.error c
    | Except.ok none => timeFilterAll env o rest
    | Except.ok (some j2) =>
      match timeFilterAll env o rest with
      | Except.error c => Except.error c
      | Except.ok out => Except.ok (j2 :: out)

/-- The dispatch switch of prepareCopyURLs (cp-url.go lines 242-257): the raw
Job stream produced for a computed classification. -/
def rawCopyURLs (env : Env) (o : prepareCopyURLsOpts) (cpType : copyURLsType)
    (cpVersion : String) : List URLs :=
  match cpType with
  | copyURLsType.copyURLsTypeA =>
    [prepareCopyURLsTypeA env (o.sourceURLs.headD "") cpVersion o.targetURL o.encKeyDB o.isZip]
  | copyURLsType.copyURLsTypeB =>
    [prepareCopyURLsTypeB env (o.sourceURLs.headD "") cpVersion o.targetURL o.encKeyDB o.isZip]
  | copyURLsType.copyURLsTypeC =>
    prepareCopyURLsTypeC env (o.sourceURLs.headD "") o.targetURL o.isRecursive o.isZip o.timeRef
  | copyURLsType.copyURLsTypeD =>
    prepareCopyURLsTypeD env o.sourceURLs o.targetURL o.isRecursive o.timeRef
  | copyURLsType.copyURLsTypeInvalid =>
    [URLs.ofError (errInvalidArgument.Trace o.sourceURLs)]

/-- prepareCopyURLs (cp-url.go lines 235-279).  A classification error fires
fatalIf; fatalIf is not under src/ and is modelled from the spec: a fatal
classification failure aborts the invocation before any Job is produced
(outer Except.error), and the core itself does not exit the process.  The
inner Except records whether the filter stage crashed while draining. -/
def prepareCopyURLs (env : Env) (o : prepareCopyURLsOpts) :
    Except ProbeErr (Except Crash (List URLs)) :=
  match guessCopyURLType env o with
  | (_, _, some err) => Except.error (err.Trace [])
  | (cpType, cpVersion, none) =>
    Except.ok (timeFilterAll env o (rawCopyURLs env o cpType cpVersion))

/-! ### Specification-side definitions (written from the spec's words, for comparison) -/

/-- The Type C path suffix as the spec words it: locate the last separator of
the original, alias-stripped source argument's path; when its index exceeds 1,
strip that prefix from the record's forward-slash-normalized path; otherwise
keep the record's full path verbatim. -/
def specTypeCSuffix (sourceArgPath recordPath : String) : String :=
  let sepIdx := strLastIndex sourceArgPath "/"
  if sepIdx > 1 then
    trimPrefixGo (toSlash recordPath) (strTake sourceArgPath sepIdx.toNat)
  else recordPath

/-- The Type D stream as the spec words it: the concatenation, in argument
order, of Type C applied to each source with the invocation's own
configuration, including its archive-mode flag. -/
def specTypeDStream (env : Env) (o : prepareCopyURLsOpts) : List URLs :=
  (o.sourceURLs.map (fun s =>
    prepareCopyURLsTypeC env s o.targetURL o.isRecursive o.isZip o.timeRef)).flatten

/-! ### Concrete instances used by witnesses and counterexamples -/

/-- A generic non-fatal collaborator error. -/
def eOther : ProbeErr := ⟨ErrKind.other "collaborator failure", []⟩

/-- Source content for the classifier witness: a regular file with a version id. -/
def cFileC2 : ClientContent := ⟨⟨"f.txt", '/'⟩, FileType.regular, Time.zero, "v7", none⟩

/-- Environment for the classifier witness: source s stats as a regular file,
target d is an existing directory. -/
def envC2 : Env where
  mustExpandAlias := fun u => ("", u)
  url2Stat := fun u _ _ _ _ _ =>
    if u = "s" then Except.ok cFileC2 else Except.error eOther
  firstURL2Stat := fun _ _ _ => Except.error eOther
  isAliasURLDir := fun t _ _ => t = "d"
  newClient := fun _ => Except.error eOther
  isOlder := fun _ _ => false
  isNewer := fun _ _ => false

/-- Options for the classifier witness, shape B: one file source, directory target. -/
def oC2B : prepareCopyURLsOpts := ⟨["s"], "d", false, [], "", "", Time.zero, "", false⟩

/-- Options for the classifier witness, shape D: two sources, directory target. -/
def oC2D : prepareCopyURLsOpts := ⟨["s", "s2"], "d", false, [], "", "", Time.zero, "", false⟩

/-- Filter-stage options with an older-than bound configured. -/
def oC3 : prepareCopyURLsOpts := ⟨["s"], "t", false, [], "7d", "", Time.zero, "", false⟩

/-- Filter-stage options with no time bound configured. -/
def oC3n : prepareCopyURLsOpts := ⟨["s"], "t", false, [], "", "", Time.zero, "", false⟩

/-- Environment for the filter-stage evaluation; its services are never
consulted before the crash. -/
def envC3 : Env where
  mustExpandAlias := fun u => ("", u)
  url2Stat := fun _ _ _ _ _ _ => Except.error eOther
  firstURL2Stat := fun _ _ _ => Except.error eOther
  isAliasURLDir := fun _ _ _ => false
  newClient := fun _ => Except.error eOther
  isOlder := fun _ _ => true
  isNewer := fun _ _ => true

/-- A regular-file record under source s1, present only in non-archive listings. -/
def recPlain : ClientContent := ⟨⟨"s1/x.txt", '/'⟩, FileType.regular, Time.zero, "", none⟩

/-- A client whose listing depends on the archive-mode flag. -/
def clC4 : Client := ⟨⟨"s1", '/'⟩, fun opts => if opts.ListZip then [] else [recPlain]⟩

/-- Environment for the Type D counterexample: every source yields clC4 and the
target is an existing directory. -/
def envC4 : Env where
  mustExpandAlias := fun u => ("", u)
  url2Stat := fun _ _ _ _ _ _ => Except.error eOther
  firstURL2Stat := fun _ _ _ => Except.error eOther
  isAliasURLDir := fun _ _ _ => true
  newClient := fun _ => Except.ok clC4
  isOlder := fun _ _ => false
  isNewer := fun _ _ => false

/-- A multi-source invocation with archive mode requested. -/
def oC4 : prepareCopyURLsOpts := ⟨["s1", "s2"], "tgt", false, [], "", "", Time.zero, "", true⟩

/-- The reference time configured for the orchestrator scenario. -/
def tRefC5 : Time := ⟨100⟩

/-- A regular file visible to stats at the configured reference time only. -/
def cC5file : ClientContent := ⟨⟨"f", '/'⟩, FileType.regular, Time.zero, "", none⟩

/-- Environment for the orchestrator scenario: the classifier's stat (at the
configured reference time) succeeds, the Type A stat (at the zero time)
fails, so the expander emits an error Job. -/
def envC5 : Env where
  mustExpandAlias := fun u => ("", u)
  url2Stat := fun _ _ _ _ t _ =>
    if t = tRefC5 then Except.ok cC5file else Except.error eOther
  firstURL2Stat := fun _ _ _ => Except.error eOther
  isAliasURLDir := fun _ _ _ => false
  newClient := fun _ => Except.error eOther
  isOlder := fun _ _ => false
  isNewer := fun _ _ => false

/-- A single-source invocation classified A, with an older-than bound configured. -/
def oC5 : prepareCopyURLsOpts := ⟨["f"], "t", false, [], "7d", "", tRefC5, "", false⟩

/-- A multi-source invocation whose target is not a directory: Invalid. -/
def oC5bad : prepareCopyURLsOpts := ⟨["a", "b"], "t", false, [], "", "", Time.zero, "", false⟩

/-- Source content for the Type B witness: regular file a/b/c.txt. -/
def cB6 : ClientContent := ⟨⟨"a/b/c.txt", '/'⟩, FileType.regular, Time.zero, "", none⟩

/-- Environment for the Type B witness: target t expands to directory path d/e. -/
def envB6 : Env where
  mustExpandAlias := fun u => if u = "t" then ("tal", "d/e") else ("sal", u)
  url2Stat := fun u _ _ _ _ _ =>
    if u = "sB6" then Except.ok cB6 else Except.error eOther
  firstURL2Stat := fun _ _ _ => Except.error eOther
  isAliasURLDir := fun _ _ _ => true
  newClient := fun _ => Except.error eOther
  isOlder := fun _ _ => false
  isNewer := fun _ _ => false

/-- Source content for the Type A witness: a directory. -/
def cA7dir : ClientContent := ⟨⟨"somedir", '/'⟩, FileType.dir, Time.zero, "", none⟩

/-- Environment for the Type A witness: source sd stats as a directory. -/
def envA7 : Env where
  mustExpandAlias := fun u => ("", u)
  url2Stat := fun u _ _ _ _ _ =>
    if u = "sd" then Except.ok cA7dir else Except.error eOther
  firstURL2Stat := fun _ _ _ => Except.error eOther
  isAliasURLDir := fun _ _ _ => false
  newClient := fun _ => Except.error eOther
  isOlder := fun _ _ => false
  isNewer := fun _ _ => false

/-- A top-level regular file under dir, returned by every listing of clC8. -/
def recTop : ClientContent := ⟨⟨"dir/a.txt", '/'⟩, FileType.regular, Time.zero, "", none⟩

/-- A nested regular file under dir, returned only by recursive listings of clC8. -/
def recSub : ClientContent := ⟨⟨"dir/sub/b.txt", '/'⟩, FileType.regular, Time.zero, "", none⟩

/-- A client whose listing depends on the recursion option. -/
def clC8 : Client := ⟨⟨"dir", '/'⟩, fun opts => if opts.Recursive then [recTop, recSub] else [recTop]⟩

/-- The statted shape of source dir: a directory. -/
def cC8dir : ClientContent := ⟨⟨"dir", '/'⟩, FileType.dir, Time.zero, "", none⟩

/-- Environment for the Type C recursion counterexample: source dir is a
directory, the target is an existing directory, listings come from clC8. -/
def envC8 : Env where
  mustExpandAlias := fun u => ("", u)
  url2Stat := fun u _ _ _ _ _ =>
    if u = "dir" then Except.ok cC8dir else Except.error eOther
  firstURL2Stat := fun _ _ _ => Except.error eOther
  isAliasURLDir := fun _ _ _ => true
  newClient := fun u => if u = "dir" then Except.ok clC8 else Except.error eOther
  isOlder := fun _ _ => false
  isNewer := fun _ _ => false

/-- A directory source given without the recursion flag. -/
def oC8 : prepareCopyURLsOpts := ⟨["dir"], "bucket", false, [], "", "", Time.zero, "", false⟩

/-- The per-entry error of the failing listing record. -/
def eC9 : ProbeErr := ⟨ErrKind.other "listing entry failed", []⟩

/-- A listing record that carries a per-entry error. -/
def recErr : ClientContent := ⟨⟨"p/err", '/'⟩, FileType.regular, Time.zero, "", some eC9⟩

/-- A directory listing record (non-regular, to be skipped). -/
def recDir : ClientContent := ⟨⟨"p/d", '/'⟩, FileType.dir, Time.zero, "", none⟩

/-- A successful regular-file listing record. -/
def recFile : ClientContent := ⟨⟨"p/f.txt", '/'⟩, FileType.regular, Time.zero, "", none⟩

/-- A client whose listing yields one failing, one directory and one regular record. -/
def clC9 : Client := ⟨⟨"p", '/'⟩, fun _ => [recErr, recDir, recFile]⟩

/-- Environment for the Type C stream witness. -/
def envC9 : Env where
  mustExpandAlias := fun u => ("", u)
  url2Stat := fun _ _ _ _ _ _ => Except.error eOther
  firstURL2Stat := fun _ _ _ => Except.error eOther
  isAliasURLDir := fun _ _ _ => true
  newClient := fun u => if u = "p" then Except.ok clC9 else Except.error eOther
  isOlder := fun _ _ => false
  isNewer := fun _ _ => false

/-- A variant of envA7 whose stats agree with envA7 at the zero time reference
but fail at every other reference time. -/
def envC10 : Env where
  mustExpandAlias := envA7.mustExpandAlias
  url2Stat := fun u v fa k t z =>
    if t = Time.zero then envA7.url2Stat u v fa k t z else Except.error eOther
  firstURL2Stat := fun _ _ _ => Except.error eOther
  isAliasURLDir := fun _ _ _ => true
  newClient := fun _ => Except.error eOther
  isOlder := fun _ _ => true
  isNewer := fun _ _ => true

/-! ### Helper lemmas -/

/-- On this build the separator already is the forward slash, so normalization
is the identity. -/
theorem toSlash_eq (s : String) : toSlash s = s := by
  cases s with
  | mk data =>
    have h : ∀ c : Char, (if c = pathSeparator then '/' else c) = c := by
      intro c
      by_cases h : c = pathSeparator
      · simp [h, pathSeparator]
      · simp [h]
    simp [toSlash, h]

/-- The one-character separator string. -/
theorem singleton_slash : String.singleton '/' = "/" := rfl

/-- A regular entry is not a directory. -/
theorem isDir_false_of_isRegular {t : FileType} (h : t.IsRegular = true) :
    t.IsDir = false := by
  cases t <;> simp_all [FileType.IsRegular, FileType.IsDir]

/-- A directory entry is not regular. -/
theorem isRegular_false_of_isDir {t : FileType} (h : t.IsDir = true) :
    t.IsRegular = false := by
  cases t <;> simp_all [FileType.IsRegular, FileType.IsDir]

/-- A Type A Job carries no error. -/
theorem makeCopyContentTypeA_Error (a : String) (c : ClientContent) (ta tu : String) :
    (makeCopyContentTypeA a c ta tu).Error = none := rfl

/-- A Type C Job carries no error. -/
theorem makeCopyContentTypeC_Error (a : String) (u : ClientURL) (c : ClientContent)
    (ta tu : String) :
    (makeCopyContentTypeC a u c ta tu).Error = none := rfl

/-- The Type C loop emits one error Job per failing record. -/
theorem typeC_stream_error_count (a : String) (cu : ClientURL) (ta tu : String)
    (records : List ClientContent) :
    ((records.filterMap (typeCStep a cu ta tu)).filter (fun j => j.Error.isSome)).length
      = (records.filter (fun c => c.Err.isSome)).length := by
  induction records with
  | nil => rfl
  | cons c rest ih =>
    cases hE : c.Err with
    | some e =>
      simp [List.filterMap_cons, List.filter_cons, typeCStep, hE, URLs.ofError, ih]
    | none =>
      cases hT : c.type_.IsRegular with
      | false => simp [List.filterMap_cons, List.filter_cons, typeCStep, hE, hT, ih]
      | true =>
        simp [List.filterMap_cons, List.filter_cons, typeCStep, hE, hT, ih,
          makeCopyContentTypeC, makeCopyContentTypeA]

/-- The Type C loop emits one success Job per succeeding regular record. -/
theorem typeC_stream_success_count (a : String) (cu : ClientURL) (ta tu : String)
    (records : List ClientContent) :
    ((records.filterMap (typeCStep a cu ta tu)).filter (fun j => j.Error.isNone)).length
      = (records.filter (fun c => c.Err.isNone && c.type_.IsRegular)).length := by
  induction records with
  | nil => rfl
  | cons c rest ih =>
    cases hE : c.Err with
    | some e =>
      simp [List.filterMap_cons, List.filter_cons, typeCStep, hE, URLs.ofError, ih]
    | none =>
      cases hT : c.type_.IsRegular with
      | false => simp [List.filterMap_cons, List.filter_cons, typeCStep, hE, hT, ih]
      | true =>
        simp [List.filterMap_cons, List.filter_cons, typeCStep, hE, hT, ih,
          makeCopyContentTypeC, makeCopyContentTypeA]

/-! ### Claim theorems -/

/-- C1: for every Type C expansion, the target of an emitted regular-file Job
is the forward-slash join, onto the target path, of the suffix obtained from
the record's path by stripping the source argument's prefix up to its last
separator when that separator's index exceeds 1, and of the record's full path
otherwise; in particular source argument bucket/dir1 with record
bucket/dir1/sub/file.txt and target bucket2/out yields
bucket2/out/dir1/sub/file.txt. -/
theorem C1_typeC_target_path :
    (∀ (sourceAlias : String) (sourceURL : ClientURL) (sourceContent : ClientContent)
        (targetAlias targetURL : String),
        sourceURL.Separator = '/' →
        (makeCopyContentTypeC sourceAlias sourceURL sourceContent targetAlias
            targetURL).TargetContent
          = some (ClientContent.bare (newClientURL (urlJoinPath targetURL
              (specTypeCSuffix sourceURL.Path sourceContent.URL.Path))))) ∧
    (makeCopyContentTypeC "mys3" ⟨"bucket/dir1", '/'⟩
        ⟨⟨"bucket/dir1/sub/file.txt", '/'⟩, FileType.regular, Time.zero, "", none⟩
        "s3two" "bucket2/out").TargetContent
      = some (ClientContent.bare (newClientURL "bucket2/out/dir1/sub/file.txt")) := by
  constructor
  · intro a u c ta tu h
    simp [makeCopyContentTypeC, makeCopyContentTypeA, specTypeCSuffix, h,
      singleton_slash, toSlash_eq]
  · rfl

/-- Witness for C1 at the spec's own example. -/
theorem C1_witness :
    (makeCopyContentTypeC "mys3" ⟨"bucket/dir1", '/'⟩
        ⟨⟨"bucket/dir1/sub/file.txt", '/'⟩, FileType.regular, Time.zero, "", none⟩
        "s3two" "bucket2/out").TargetContent
      = some (ClientContent.bare (newClientURL (urlJoinPath "bucket2/out"
          (specTypeCSuffix "bucket/dir1" "bucket/dir1/sub/file.txt")))) :=
  C1_typeC_target_path.1 "mys3" ⟨"bucket/dir1", '/'⟩
    ⟨⟨"bucket/dir1/sub/file.txt", '/'⟩, FileType.regular, Time.zero, "", none⟩
    "s3two" "bucket2/out" rfl

/-- C2: the classifier maps a failed probe to Invalid with the probe error;
a directory source or the recursion flag to C; a non-recursive regular-file
source to B (directory target, carrying the version id) or A (otherwise,
carrying the version id); multiple sources to D (directory target) or
Invalid (otherwise). -/
theorem C2_classifier (env : Env) (o : prepareCopyURLsOpts) :
    (∀ e, o.sourceURLs.length = 1 → classifierProbe env o = Except.error e →
      guessCopyURLType env o = (copyURLsType.copyURLsTypeInvalid, "", some e)) ∧
    (∀ c, o.sourceURLs.length = 1 → classifierProbe env o = Except.ok c →
      (c.type_.IsDir = true ∨ o.isRecursive = true) →
      guessCopyURLType env o = (copyURLsType.copyURLsTypeC, "", none)) ∧
    (∀ c, o.sourceURLs.length = 1 → classifierProbe env o = Except.ok c →
      c.type_.IsRegular = true → o.isRecursive = false →
      env.isAliasURLDir o.targetURL o.encKeyDB o.timeRef = true →
      guessCopyURLType env o = (copyURLsType.copyURLsTypeB, c.VersionID, none)) ∧
    (∀ c, o.sourceURLs.length = 1 → classifierProbe env o = Except.ok c →
      c.type_.IsRegular = true → o.isRecursive = false →
      env.isAliasURLDir o.targetURL o.encKeyDB o.timeRef = false →
      guessCopyURLType env o = (copyURLsType.copyURLsTypeA, c.VersionID, none)) ∧
    (1 < o.sourceURLs.length →
      env.isAliasURLDir o.targetURL o.encKeyDB o.timeRef = true →
      guessCopyURLType env o = (copyURLsType.copyURLsTypeD, "", none)) ∧
    (1 < o.sourceURLs.length →
      env.isAliasURLDir o.targetURL o.encKeyDB o.timeRef = false →
      guessCopyURLType env o
        = (copyURLsType.copyURLsTypeInvalid, "", some (errInvalidArgument.Trace []))) := by
  refine ⟨?_, ?_, ?_, ?_, ?_, ?_⟩
  · intro e h1 hp
    simp [guessCopyURLType, h1, hp]
  · intro c h1 hp hcr
    rcases hcr with hd | hr
    · simp [guessCopyURLType, h1, hp, hd]
    · simp [guessCopyURLType, h1, hp, hr]
  · intro c h1 hp hreg hrec htgt
    simp [guessCopyURLType, h1, hp, isDir_false_of_isRegular hreg, hrec, htgt]
  · intro c h1 hp hreg hrec htgt
    simp [guessCopyURLType, h1, hp, isDir_false_of_isRegular hreg, hrec, htgt]
  · intro hlen htgt
    have h1 : o.sourceURLs.length ≠ 1 := by omega
    simp [guessCopyURLType, h1, htgt]
  · intro hlen htgt
    have h1 : o.sourceURLs.length ≠ 1 := by omega
    simp [guessCopyURLType, h1, htgt]

/-- Witness for C2: a concrete B-shaped and a concrete D-shaped invocation. -/
theorem C2_witness :
    guessCopyURLType envC2 oC2B = (copyURLsType.copyURLsTypeB, "v7", none) ∧
    guessCopyURLType envC2 oC2D = (copyURLsType.copyURLsTypeD, "", none) :=
  ⟨(C2_classifier envC2 oC2B).2.2.1 cFileC2 rfl rfl rfl rfl (by decide),
   (C2_classifier envC2 oC2D).2.2.2.2.1 (by decide) (by decide)⟩

/-- C3 (code bug): when a time bound is configured, the filter stage
dereferences the nil SourceContent of an error Job and crashes instead of
passing the error Job through; with no bound configured the error Job does
pass through unchanged. -/
theorem C3_filter_crashes_on_error_job :
    timeFilterAll envC3 oC3 [URLs.ofError eOther]
      = Except.error Crash.nilPointerDeref ∧
    timeFilterAll envC3 oC3n [URLs.ofError eOther]
      = Except.ok [URLs.ofError eOther] := ⟨rfl, rfl⟩

/-- C4 counterexample: an invocation classified D with archive mode requested,
whose Type D output differs from the concatenation of Type C run with the
invocation's own archive-mode flag, because line 215 hardcodes the flag to
false. -/
theorem C4_counterexample :
    guessCopyURLType envC4 oC4 = (copyURLsType.copyURLsTypeD, "", none) ∧
    prepareCopyURLsTypeD envC4 oC4.sourceURLs oC4.targetURL oC4.isRecursive oC4.timeRef
      ≠ specTypeDStream envC4 oC4 := by
  exact ⟨rfl, by decide⟩

/-- C4 (amended): the Type D output is the concatenation, in argument order,
of the Type C expander applied to each source with the invocation's recursion
flag and reference time but with the archive-mode flag hardcoded to false. -/
theorem C4_typeD_concat (env : Env) (sourceURLs : List String) (targetURL : String)
    (isRecursive : Bool) (timeRef : Time) :
    prepareCopyURLsTypeD env sourceURLs targetURL isRecursive timeRef
      = (sourceURLs.map (fun s =>
          prepareCopyURLsTypeC env s targetURL isRecursive false timeRef)).flatten := by
  induction sourceURLs with
  | nil => rfl
  | cons s rest ih => simp [prepareCopyURLsTypeD, ih]

/-- C5 (code bug): an Invalid classification is fatal and yields zero Jobs;
but an expander error Job is not always delivered on the output channel — with
a time bound configured the filter stage crashes the process on it. -/
theorem C5_fatal_and_crash :
    prepareCopyURLs envC5 oC5bad = Except.error (errInvalidArgument.Trace []) ∧
    guessCopyURLType envC5 oC5 = (copyURLsType.copyURLsTypeA, "", none) ∧
    rawCopyURLs envC5 oC5 copyURLsType.copyURLsTypeA ""
      = [URLs.ofError (eOther.Trace ["f"])] ∧
    prepareCopyURLs envC5 oC5 = Except.ok (Except.error Crash.nilPointerDeref) :=
  ⟨rfl, rfl, rfl, rfl⟩

/-- C6: Type B maps a statted directory source to the distinct
source-is-a-directory error Job, any other non-regular source to the generic
invalid-source error Job, and a regular source to the Type A builder applied
to the forward-slash join of the target directory path and the source's base
name. -/
theorem C6_typeB (env : Env) (sourceURL sourceVersion targetURL : String)
    (encKeyDB : EncKeyDB) (isZip : Bool) :
    (∀ c, env.url2Stat sourceURL sourceVersion false encKeyDB Time.zero isZip = Except.ok c →
      c.type_.IsDir = true →
      prepareCopyURLsTypeB env sourceURL sourceVersion targetURL encKeyDB isZip
        = URLs.ofError ((errSourceIsDir sourceURL).Trace [sourceURL])) ∧
    (∀ u, URLs.ofError ((errSourceIsDir u).Trace [u])
        ≠ URLs.ofError ((errInvalidSource u).Trace [u])) ∧
    (∀ c, env.url2Stat sourceURL sourceVersion false encKeyDB Time.zero isZip = Except.ok c →
      c.type_.IsRegular = false → c.type_.IsDir = false →
      prepareCopyURLsTypeB env sourceURL sourceVersion targetURL encKeyDB isZip
        = URLs.ofError ((errInvalidSource sourceURL).Trace [sourceURL])) ∧
    (∀ c, env.url2Stat sourceURL sourceVersion false encKeyDB Time.zero isZip = Except.ok c →
      c.type_.IsRegular = true →
      prepareCopyURLsTypeB env sourceURL sourceVersion targetURL encKeyDB isZip
        = makeCopyContentTypeA (env.mustExpandAlias sourceURL).1 c
            (env.mustExpandAlias targetURL).1
            (toSlash (goJoin2 (newClientURL (env.mustExpandAlias targetURL).2).Path
              (goBase c.URL.Path)))) := by
  refine ⟨?_, ?_, ?_, ?_⟩
  · intro c h hd
    simp [prepareCopyURLsTypeB, h, hd, isRegular_false_of_isDir hd]
  · intro u
    simp [URLs.ofError, ProbeErr.Trace, errSourceIsDir, errInvalidSource]
  · intro c h hr hd
    simp [prepareCopyURLsTypeB, h, hr, hd]
  · intro c h hr
    simp [prepareCopyURLsTypeB, h, hr, makeCopyContentTypeB, ClientURL.str]

/-- Witness for C6 at the spec's own example: source a/b/c.txt into directory
d/e yields target d/e/c.txt built by the Type A builder. -/
theorem C6_witness :
    prepareCopyURLsTypeB envB6 "sB6" "" "t" [] false
      = makeCopyContentTypeA "sal" cB6 "tal" "d/e/c.txt" := by
  have h := (C6_typeB envB6 "sB6" "" "t" [] false).2.2.2 cB6 rfl rfl
  exact h

/-- C7: Type A maps a stat failure to an error Job tracing the source URL, a
non-regular source (a directory included) to the invalid-source error Job, and
a regular source to a Job whose target content is the bare location wrapper of
the expanded target path; the result depends only on the stat of the source
URL, so the target is never statted. -/
theorem C7_typeA (env : Env) (sourceURL sourceVersion targetURL : String)
    (encKeyDB : EncKeyDB) (isZip : Bool) :
    (∀ e, env.url2Stat sourceURL sourceVersion false encKeyDB Time.zero isZip
        = Except.error e →
      prepareCopyURLsTypeA env sourceURL sourceVersion targetURL encKeyDB isZip
        = URLs.ofError (e.Trace [sourceURL])) ∧
    (∀ c, env.url2Stat sourceURL sourceVersion false encKeyDB Time.zero isZip = Except.ok c →
      c.type_.IsRegular = false →
      prepareCopyURLsTypeA env sourceURL sourceVersion targetURL encKeyDB isZip
        = URLs.ofError ((errInvalidSource sourceURL).Trace [sourceURL])) ∧
    (∀ c, env.url2Stat sourceURL sourceVersion false encKeyDB Time.zero isZip = Except.ok c →
      c.type_.IsRegular = true →
      prepareCopyURLsTypeA env sourceURL sourceVersion targetURL encKeyDB isZip
        = ⟨(env.mustExpandAlias sourceURL).1, some c, (env.mustExpandAlias targetURL).1,
            some (ClientContent.bare (newClientURL (env.mustExpandAlias targetURL).2)),
            none⟩) ∧
    (∀ env2 : Env, env2.mustExpandAlias = env.mustExpandAlias →
      (∀ v fa k t z, env2.url2Stat sourceURL v fa k t z = env.url2Stat sourceURL v fa k t z) →
      prepareCopyURLsTypeA env2 sourceURL sourceVersion targetURL encKeyDB isZip
        = prepareCopyURLsTypeA env sourceURL sourceVersion targetURL encKeyDB isZip) := by
  refine ⟨?_, ?_, ?_, ?_⟩
  · intro e h
    simp [prepareCopyURLsTypeA, h]
  · intro c h hr
    simp [prepareCopyURLsTypeA, h, hr]
  · intro c h hr
    simp [prepareCopyURLsTypeA, h, hr, makeCopyContentTypeA]
  · intro env2 halias hstat
    simp [prepareCopyURLsTypeA, halias, hstat]

/-- Witness for C7: a directory source yields the invalid-source error Job. -/
theorem C7_witness :
    prepareCopyURLsTypeA envA7 "sd" "" "t" [] false
      = URLs.ofError ((errInvalidSource "sd").Trace ["sd"]) :=
  (C7_typeA envA7 "sd" "" "t" [] false).2.1 cA7dir rfl rfl

/-- C8 counterexample: a directory source without the recursion flag is
classified C, yet its listing is consumed with Recursive set to false, so the
output differs from what the recursive listing would produce. -/
theorem C8_counterexample :
    guessCopyURLType envC8 oC8 = (copyURLsType.copyURLsTypeC, "", none) ∧
    oC8.isRecursive = false ∧
    (typeCListOptions oC8.isRecursive oC8.isZip oC8.timeRef).Recursive = false ∧
    prepareCopyURLsTypeC envC8 "dir" "bucket" oC8.isRecursive oC8.isZip oC8.timeRef
      ≠ prepareCopyURLsTypeC envC8 "dir" "bucket" true oC8.isZip oC8.timeRef := by
  refine ⟨rfl, rfl, rfl, ?_⟩
  decide

/-- C8 (amended): the Type C listing is consumed with Recursive set to the
invocation's recursion flag (not forced on), the reference time passed
through, directories never listed as independent entries, and the archive-mode
flag passed through. -/
theorem C8_typeC_listing_config (env : Env) (sourceURL targetURL : String)
    (isRecursive isZip : Bool) (timeRef : Time) (cl : Client)
    (h : env.newClient sourceURL = Except.ok cl) :
    prepareCopyURLsTypeC env sourceURL targetURL isRecursive isZip timeRef
      = (cl.list ⟨isRecursive, timeRef, DirOpt.DirNone, isZip⟩).filterMap
          (typeCStep (env.mustExpandAlias sourceURL).1 cl.GetURL
            (env.mustExpandAlias targetURL).1 (env.mustExpandAlias targetURL).2) := by
  simp [prepareCopyURLsTypeC, h, typeCListOptions]

/-- Witness for C8's amended theorem at a concrete non-recursive invocation. -/
theorem C8_witness :
    prepareCopyURLsTypeC envC8 "dir" "bucket" false false Time.zero
      = (clC8.list ⟨false, Time.zero, DirOpt.DirNone, false⟩).filterMap
          (typeCStep "" clC8.GetURL "" "bucket") := by
  have h := C8_typeC_listing_config envC8 "dir" "bucket" false false Time.zero clC8 rfl
  exact h

/-- C9: Type C emits exactly one error Job when client construction fails;
otherwise its output is the per-record loop applied to the listing in order,
with one error Job per failing record (traced with the client URL) and one
success Job per succeeding regular record, non-regular records skipped. -/
theorem C9_typeC_stream (env : Env) (sourceURL targetURL : String)
    (isRecursive isZip : Bool) (timeRef : Time) :
    (∀ e, env.newClient sourceURL = Except.error e →
      prepareCopyURLsTypeC env sourceURL targetURL isRecursive isZip timeRef
        = [URLs.ofError (e.Trace [sourceURL])]) ∧
    (∀ cl, env.newClient sourceURL = Except.ok cl →
      prepareCopyURLsTypeC env sourceURL targetURL isRecursive isZip timeRef
          = (cl.list (typeCListOptions isRecursive isZip timeRef)).filterMap
              (typeCStep (env.mustExpandAlias sourceURL).1 cl.GetURL
                (env.mustExpandAlias targetURL).1 (env.mustExpandAlias targetURL).2) ∧
      ((prepareCopyURLsTypeC env sourceURL targetURL isRecursive isZip timeRef).filter
          (fun j => j.Error.isSome)).length
        = ((cl.list (typeCListOptions isRecursive isZip timeRef)).filter
            (fun c => c.Err.isSome)).length ∧
      ((prepareCopyURLsTypeC env sourceURL targetURL isRecursive isZip timeRef).filter
          (fun j => j.Error.isNone)).length
        = ((cl.list (typeCListOptions isRecursive isZip timeRef)).filter
            (fun c => c.Err.isNone && c.type_.IsRegular)).length) := by
  constructor
  · intro e h
    simp [prepareCopyURLsTypeC, h]
  · intro cl h
    have hchar : prepareCopyURLsTypeC env sourceURL targetURL isRecursive isZip timeRef
        = (cl.list (typeCListOptions isRecursive isZip timeRef)).filterMap
            (typeCStep (env.mustExpandAlias sourceURL).1 cl.GetURL
              (env.mustExpandAlias targetURL).1 (env.mustExpandAlias targetURL).2) := by
      simp [prepareCopyURLsTypeC, h]
    refine ⟨hchar, ?_, ?_⟩
    · rw [hchar]
      exact typeC_stream_error_count _ _ _ _ _
    · rw [hchar]
      exact typeC_stream_success_count _ _ _ _ _

/-- Witness for C9: a listing with one failing, one directory and one regular
record yields exactly one error Job and one success Job. -/
theorem C9_witness :
    ((prepareCopyURLsTypeC envC9 "p" "t" true false Time.zero).filter
        (fun j => j.Error.isSome)).length = 1 ∧
    ((prepareCopyURLsTypeC envC9 "p" "t" true false Time.zero).filter
        (fun j => j.Error.isNone)).length = 1 := by
  have h := (C9_typeC_stream envC9 "p" "t" true false Time.zero).2 clC9 rfl
  exact ⟨h.2.1.trans (by rfl), h.2.2.trans (by rfl)⟩

/-- C10: the Type A and Type B expanders stat the source with the zero time
reference — two environments whose stats agree at the zero reference time (and
share alias resolution) yield identical A and B results, whatever either does
at any other reference time. -/
theorem C10_zero_timeRef (env env2 : Env) (sourceURL sourceVersion targetURL : String)
    (encKeyDB : EncKeyDB) (isZip : Bool)
    (halias : env2.mustExpandAlias = env.mustExpandAlias)
    (hstat : ∀ u v fa k z, env2.url2Stat u v fa k Time.zero z
      = env.url2Stat u v fa k Time.zero z) :
    prepareCopyURLsTypeA env2 sourceURL sourceVersion targetURL encKeyDB isZip
      = prepareCopyURLsTypeA env sourceURL sourceVersion targetURL encKeyDB isZip ∧
    prepareCopyURLsTypeB env2 sourceURL sourceVersion targetURL encKeyDB isZip
      = prepareCopyURLsTypeB env sourceURL sourceVersion targetURL encKeyDB isZip := by
  constructor
  · simp [prepareCopyURLsTypeA, halias, hstat]
  · simp [prepareCopyURLsTypeB, halias, hstat]

/-- Witness for C10: envC10 disagrees with envA7 at every nonzero reference
time yet produces the same Type A result. -/
theorem C10_witness :
    prepareCopyURLsTypeA envC10 "sd" "" "t" [] false
      = prepareCopyURLsTypeA envA7 "sd" "" "t" [] false :=
  (C10_zero_timeRef envA7 envC10 "sd" "" "t" [] false rfl
    (fun u v fa k z => by simp [envC10])).1

end MC
